import Mathlib

/-!
Verification development for the `simple-p2p-docstore` overlay node
coordinator. The Rust source is shallowly embedded: pure construction
functions become Lean functions, the single-threaded event loop becomes a
state-transformer over an explicit `LoopState`, and the external libp2p
collaborators (gossipsub publish, multiaddr parsing, keypair
encoding/decoding, the filesystem) are modelled as explicit parameters or
small interface records, following the shapes of the calls the coordinator
makes on them.
-/

namespace SimpleP2P

/-! ## Identity model

`identity::Keypair` / `identity::PublicKey` / `PeerId` from libp2p.  Only
the derivation chain keypair → public key → peer id matters to the
coordinator; we model each as a wrapper around an abstract numeric id so
that the derivation is the identity on that number.
-/

structure Keypair where
  id : Nat
deriving DecidableEq, Repr

structure PublicKey where
  id : Nat
deriving DecidableEq, Repr

structure PeerId where
  id : Nat
deriving DecidableEq, Repr

def Keypair.public (k : Keypair) : PublicKey := ⟨k.id⟩

/-- `PeerId::from(key.public())`. -/
def PeerId.fromPublic (p : PublicKey) : PeerId := ⟨p.id⟩

def peerIdStr (p : PeerId) : String := toString p.id

/-! ## Multiaddr model

A multiaddr is a sequence of protocol components; the only component the
coordinator inspects is `Protocol::P2p(peer_id)` (in the bootstrap loop of
`bin/server.rs`).
-/

inductive MProtocol where
  | P2p (pid : PeerId)
  | Other (tag : Nat)
deriving DecidableEq, Repr

def MultiaddrM := List MProtocol
deriving instance DecidableEq, Repr for MultiaddrM

def mprotoStr : MProtocol → String
  | .P2p pid => "/p2p/" ++ peerIdStr pid
  | .Other t => "/x/" ++ toString t

/-- `Multiaddr::to_string()`, modelled componentwise. -/
def maToString (a : MultiaddrM) : String :=
  String.join (a.map mprotoStr)

/-! ## Behaviour modules (src/behaviour/*.rs, src/node.rs)

Each libp2p behaviour is modelled by the configuration the repository
gives it; internals of the protocol modules are out of scope.
-/

/-- `libp2p::ping::Behaviour::default()`: default-configured ping. -/
structure PingBehaviour where
  default_config : Bool
deriving DecidableEq, Repr

def PingBehaviour.default : PingBehaviour := ⟨true⟩

/-- `identify::Behaviour` with the config built in `make_peer_dht`. -/
structure IdentifyBehaviour where
  protocol_version : String
  public_key : PublicKey
deriving DecidableEq, Repr

/-- Kademlia DHT participation mode (`libp2p_kad::Mode`). -/
inductive Mode where
  | Client
  | Server
deriving DecidableEq, Repr

/-- `libp2p_kad::Behaviour<MemoryStore>`: the routing table is modelled as
the list of `(peer, address)` pairs inserted via `add_address`. -/
structure KademliaBehaviour where
  local_peer_id : PeerId
  mode : Mode
  table : List (PeerId × MultiaddrM)
deriving DecidableEq, Repr

/-- `add_address(&peer, addr)` on the kademlia routing table.  Inserting an
already-known `(peer, address)` pair is a no-op (bucket entries hold a set
of addresses per peer). -/
def KademliaBehaviour.add_address (k : KademliaBehaviour) (peer : PeerId)
    (addr : MultiaddrM) : KademliaBehaviour :=
  if (peer, addr) ∈ k.table then k else { k with table := k.table ++ [(peer, addr)] }

/-- `gossipsub::Behaviour` with the config built in `make_docstore_gossipsub`:
strict validation, 1s heartbeat, messages signed with the local keypair. -/
structure GossipsubBehaviour where
  validation_strict : Bool
  heartbeat_secs : Nat
  signing_key : Keypair
deriving DecidableEq, Repr

/-- `relay::Behaviour` (circuit relay v2, default config). -/
structure RelayBehaviour where
  local_peer_id : PeerId
deriving DecidableEq, Repr

/-- `make_relay_behaviour` (src/behaviour/relay.rs). -/
def make_relay_behaviour (local_peer_id : PeerId) : RelayBehaviour :=
  ⟨local_peer_id⟩

/-- `make_peer_dht` (src/behaviour/peer_dht.rs): ping, identify and
kademlia behaviours; kademlia starts from an empty memory store and has
its mode set to the given `mode`. -/
def make_peer_dht (local_pub : PublicKey) (local_peer_id : PeerId) (mode : Mode) :
    PingBehaviour × IdentifyBehaviour × KademliaBehaviour :=
  (PingBehaviour.default,
   { protocol_version := "simple-p2p-docstore/0.1", public_key := local_pub },
   { local_peer_id := local_peer_id, mode := mode, table := [] })

/-- `make_docstore_gossipsub` (src/behaviour/docstore.rs). -/
def make_docstore_gossipsub (local_key : Keypair) : GossipsubBehaviour :=
  { validation_strict := true, heartbeat_secs := 1, signing_key := local_key }

/-- Canonical topic, `docstore_topic()` (src/behaviour/docstore.rs). -/
def docstore_topic : String := "docstore/v1/updates"

/-! ## Role-based composition (src/node.rs) -/

inductive NodeRole where
  | Client
  | Relay
  | FullNode
deriving DecidableEq, Repr

structure NodeBuilder where
  role : NodeRole
  bootstrap_peers : List MultiaddrM

def NodeBuilder.new (role : NodeRole) : NodeBuilder :=
  { role := role, bootstrap_peers := [] }

/-- `NodeBuilder::build_behaviours` (native variant, src/node.rs lines
50–73): returns `(ping, gossipsub, identify, kademlia, Option relay)`. -/
def NodeBuilder.build_behaviours (b : NodeBuilder) (key : Keypair) :
    PingBehaviour × GossipsubBehaviour × IdentifyBehaviour × KademliaBehaviour
      × Option RelayBehaviour :=
  let local_peer_id := PeerId.fromPublic key.public
  let mode := match b.role with
    | .Client => Mode.Client
    | .Relay | .FullNode => Mode.Server
  let pik := make_peer_dht key.public local_peer_id mode
  let gossipsub := make_docstore_gossipsub key
  let relay_beh := match b.role with
    | .Relay | .FullNode => some (make_relay_behaviour local_peer_id)
    | _ => none
  (pik.1, gossipsub, pik.2.1, pik.2.2, relay_beh)

/-! ## Server behaviour construction (src/bin/server.rs)

The server builds its swarm with `NodeRole::Relay` and unwraps the
optional relay behaviour with
`.expect("relay behaviour expected for relay role")`; `expect` on `None`
panics, which we model with `PanicOr`.
-/

inductive PanicOr (α : Type) where
  | panicked (msg : String)
  | ok (a : α)
deriving DecidableEq, Repr

/-- `Option::expect(msg)`. -/
def optionExpect {α : Type} (o : Option α) (msg : String) : PanicOr α :=
  match o with
  | some x => .ok x
  | none => .panicked msg

/-- The `MyBehaviour` struct of src/bin/server.rs. -/
structure MyBehaviour where
  ping : PingBehaviour
  gossipsub : GossipsubBehaviour
  identify : IdentifyBehaviour
  kademlia : KademliaBehaviour
  relay : RelayBehaviour
deriving DecidableEq, Repr

/-- The `with_behaviour` closure of `main` in src/bin/server.rs (native
branch, lines 120–130): builds behaviours with role `Relay` and unwraps
the relay option with `expect`. -/
def server_with_behaviour (key : Keypair) : PanicOr MyBehaviour :=
  let out := (NodeBuilder.new NodeRole.Relay).build_behaviours key
  match optionExpect out.2.2.2.2 "relay behaviour expected for relay role" with
  | .panicked m => .panicked m
  | .ok r =>
      .ok { ping := out.1, gossipsub := out.2.1, identify := out.2.2.1,
            kademlia := out.2.2.2.1, relay := r }

/-! ## Identity store (src/bin/server.rs, `load_or_create_identity`)

The filesystem and the keypair codec are external collaborators, modelled
by an `FsModel` recording the outcome of each I/O operation the function
performs, and by `decode` / `encode` / `fresh` parameters standing for
`Keypair::from_protobuf_encoding`, `to_protobuf_encoding` and
`Keypair::generate_ed25519`.  The function's result carries the keypair
together with the list of file writes it performed.
-/

structure FsModel where
  exists_file : Bool
  /-- Outcome of opening and reading the existing file (merged: both the
  `open` and `read_to_end` failure sites return an error with the path). -/
  read_result : Except String (List Nat)
  /-- Outcome of `create_dir_all` on the parent directory. -/
  create_dir_result : Except String Unit
  /-- Outcome of creating/truncating and writing the key file (merged:
  both the `open` and `write_all` failure sites). -/
  write_result : Except String Unit
deriving Repr

/-- The generate-and-persist tail of `load_or_create_identity` (lines
55–69): generate a fresh keypair, ensure the parent directory, write the
encoded bytes, return the keypair. -/
def generate_and_persist (path : String) (fs : FsModel) (fresh : Keypair)
    (encode : Keypair → List Nat) :
    Except String (Keypair × List (String × List Nat)) :=
  match fs.create_dir_result with
  | .error e => .error ("failed to create identity parent directory: " ++ e)
  | .ok _ =>
    match fs.write_result with
    | .error e => .error ("failed to write identity key file: " ++ path ++ ": " ++ e)
    | .ok _ => .ok (fresh, [(path, encode fresh)])

/-- `load_or_create_identity` (src/bin/server.rs lines 40–70). -/
def load_or_create_identity (path : String) (fs : FsModel)
    (decode : List Nat → Option Keypair) (fresh : Keypair)
    (encode : Keypair → List Nat) :
    Except String (Keypair × List (String × List Nat)) :=
  if fs.exists_file then
    match fs.read_result with
    | .error e => .error ("failed to read identity key file: " ++ path ++ ": " ++ e)
    | .ok buf =>
      match decode buf with
      | some kp => .ok (kp, [])
      | none => generate_and_persist path fs fresh encode
  else
    generate_and_persist path fs fresh encode

/-! ## Bootstrap resolver (src/bin/server.rs, bootstrap loop, lines 149–184)

Each seed entry is parsed as a multiaddr (the parser is an external
collaborator, passed as `parse`); an entry whose multiaddr embeds a
`P2p` peer id becomes a direct `add_address` routing-table insertion, one
without becomes a dial, and an unparsable entry is reported and skipped.
-/

/-- The peer-id extraction loop: iterate over the multiaddr's components,
remembering the last `P2p` component seen. -/
def extract_peer_id (addr : MultiaddrM) : Option PeerId :=
  addr.foldl (fun acc p => match p with | .P2p pid => some pid | .Other _ => acc) none

inductive BootstrapAction where
  | AddAddress (peer : PeerId) (addr : MultiaddrM)
  | Dial (addr : MultiaddrM)
  | InvalidSeed (entry : String)
deriving DecidableEq, Repr

/-- The body of the bootstrap loop for one seed entry. -/
def process_seed (parse : String → Option MultiaddrM) (s : String) : BootstrapAction :=
  match parse s with
  | some addr =>
    match extract_peer_id addr with
    | some pid => .AddAddress pid addr
    | none => .Dial addr
  | none => .InvalidSeed s

/-- The whole bootstrap loop over a seed list. -/
def bootstrap_seeds (parse : String → Option MultiaddrM) (seeds : List String) :
    List BootstrapAction :=
  seeds.map (process_seed parse)

/-- `BOOTSTRAP_PEERS` splitting: comma-separated, trimmed, empty entries
dropped. -/
def seed_entries (raw : String) : List String :=
  ((raw.splitOn ",").map String.trim).filter (fun s => !(s == ""))

/-- Classification of a seed entry as a direct routing-table entry. -/
def is_direct_seed (parse : String → Option MultiaddrM) (s : String) : Bool :=
  match parse s with
  | some addr => (extract_peer_id addr).isSome
  | none => false

/-- Classification of a seed entry as a dial target. -/
def is_dial_seed (parse : String → Option MultiaddrM) (s : String) : Bool :=
  match parse s with
  | some addr => (extract_peer_id addr).isNone
  | none => false

/-- Classification of a seed entry as a parse failure. -/
def is_invalid_seed (parse : String → Option MultiaddrM) (s : String) : Bool :=
  (parse s).isNone

def isAddAction : BootstrapAction → Bool
  | .AddAddress _ _ => true
  | _ => false

def isDialAction : BootstrapAction → Bool
  | .Dial _ => true
  | _ => false

def isInvalidAction : BootstrapAction → Bool
  | .InvalidSeed _ => true
  | _ => false

/-! ## UTF-8 lossy decoding (`String::from_utf8_lossy`)

The standard-library collaborator used by both gossip-message handlers.
Modelled as the WHATWG/Unicode "replacement of maximal subparts"
algorithm that the Rust standard library implements: each ill-formed
maximal subpart of the input is replaced by one U+FFFD.
-/

def replacementChar : Char := Char.ofNat 0xFFFD

def isCont (b : Nat) : Bool := 0x80 ≤ b && b ≤ 0xBF

/-- Valid second bytes of a three-byte sequence, by lead byte. -/
def valid3Second (b0 b1 : Nat) : Bool :=
  if b0 == 0xE0 then 0xA0 ≤ b1 && b1 ≤ 0xBF
  else if b0 == 0xED then 0x80 ≤ b1 && b1 ≤ 0x9F
  else isCont b1

/-- Valid second bytes of a four-byte sequence, by lead byte. -/
def valid4Second (b0 b1 : Nat) : Bool :=
  if b0 == 0xF0 then 0x90 ≤ b1 && b1 ≤ 0xBF
  else if b0 == 0xF4 then 0x80 ≤ b1 && b1 ≤ 0x8F
  else isCont b1

def utf8Lossy : List Nat → List Char
  | [] => []
  | b0 :: rest =>
    if b0 < 0x80 then Char.ofNat b0 :: utf8Lossy rest
    else if b0 < 0xC2 then replacementChar :: utf8Lossy rest
    else if b0 < 0xE0 then
      match rest with
      | [] => [replacementChar]
      | b1 :: rest1 =>
        if isCont b1 then
          Char.ofNat ((b0 - 0xC0) * 64 + (b1 - 0x80)) :: utf8Lossy rest1
        else replacementChar :: utf8Lossy (b1 :: rest1)
    else if b0 < 0xF0 then
      match rest with
      | [] => [replacementChar]
      | b1 :: rest1 =>
        if valid3Second b0 b1 then
          match rest1 with
          | [] => [replacementChar]
          | b2 :: rest2 =>
            if isCont b2 then
              Char.ofNat ((b0 - 0xE0) * 4096 + (b1 - 0x80) * 64 + (b2 - 0x80))
                :: utf8Lossy rest2
            else replacementChar :: utf8Lossy (b2 :: rest2)
        else replacementChar :: utf8Lossy (b1 :: rest1)
    else if b0 < 0xF5 then
      match rest with
      | [] => [replacementChar]
      | b1 :: rest1 =>
        if valid4Second b0 b1 then
          match rest1 with
          | [] => [replacementChar]
          | b2 :: rest2 =>
            if isCont b2 then
              match rest2 with
              | [] => [replacementChar]
              | b3 :: rest3 =>
                if isCont b3 then
                  Char.ofNat ((b0 - 0xF0) * 262144 + (b1 - 0x80) * 4096
                      + (b2 - 0x80) * 64 + (b3 - 0x80)) :: utf8Lossy rest3
                else replacementChar :: utf8Lossy (b3 :: rest3)
            else replacementChar :: utf8Lossy (b2 :: rest2)
        else replacementChar :: utf8Lossy (b1 :: rest1)
    else replacementChar :: utf8Lossy rest

/-! ## Commands, domain events and shared state (src/wasm_bindings.rs) -/

inductive Command where
  | Publish (data : List Nat)
  | FindPeer (pid : PeerId)
deriving DecidableEq, Repr

inductive Event where
  | Connected (peer_id : String)
  | Disconnected (peer_id : String)
  | MessageReceived (peer_id : String) (data : String)
  | MessagePublished (msg_id : String)
  | PeerDiscovery (peer_id : String) (addrs : List String)
  | Error (msg : String)
deriving DecidableEq, Repr

/-- `HashMap::insert`: put (or replace) the binding for `k`. -/
def mapInsert (m : List (String × List String)) (k : String) (v : List String) :
    List (String × List String) :=
  m.filter (fun p => p.1 != k) ++ [(k, v)]

/-- `HashMap::remove`. -/
def mapRemove (m : List (String × List String)) (k : String) :
    List (String × List String) :=
  m.filter (fun p => p.1 != k)

/-- `HashMap::get`. -/
def mapLookup (m : List (String × List String)) (k : String) : Option (List String) :=
  (m.find? (fun p => p.1 == k)).map Prod.snd

structure SharedState where
  listen_addrs : List String
  connected_peers : List (String × List String)
  discovered_peers : List (String × List String)
  subscriptions : List String
  relays : List String
deriving DecidableEq, Repr

/-- Initial shared state (src/wasm_bindings.rs lines 104–107):
only `subscriptions` is non-default. -/
def initSharedState : SharedState :=
  { listen_addrs := [], connected_peers := [], discovered_peers := [],
    subscriptions := [docstore_topic], relays := [] }

/-- The state the event-loop task mutates: the kademlia routing table
(owned inside the swarm) plus the shared introspection state. -/
structure LoopState where
  kademlia : KademliaBehaviour
  shared : SharedState
deriving DecidableEq, Repr

/-- Loop state at spawn time for the wasm node: kademlia as composed for
role `Client`, shared state `initSharedState`. -/
def initLoopState (key : Keypair) : LoopState :=
  { kademlia := ((NodeBuilder.new NodeRole.Client).build_behaviours key).2.2.2.1,
    shared := initSharedState }

/-! ## Swarm events as seen by the wasm event loop -/

structure PeerInfoM where
  peer_id : PeerId
  addrs : List MultiaddrM
deriving DecidableEq, Repr

inductive GossipsubEventM where
  | Message (propagation_source : PeerId) (message_id : String) (data : List Nat)
  | Subscribed (peer_id : PeerId) (topic : String)
  | Unsubscribed (peer_id : PeerId) (topic : String)
deriving DecidableEq, Repr

inductive IdentifyEventM where
  | Received (peer_id : PeerId) (listen_addrs : List MultiaddrM)
  | OtherIdentify
deriving DecidableEq, Repr

inductive QueryResultM where
  | GetClosestPeersOk (peers : List PeerInfoM)
  | GetClosestPeersErr (err : String)
  | OtherResult
deriving DecidableEq, Repr

inductive KademliaEventM where
  | OutboundQueryProgressed (id : Nat) (result : QueryResultM)
  | OtherKademlia
deriving DecidableEq, Repr

inductive BehaviourEventM where
  | Gossipsub (ev : GossipsubEventM)
  | Identify (ev : IdentifyEventM)
  | Kademlia (ev : KademliaEventM)
  | Ping
deriving DecidableEq, Repr

inductive SwarmEventM where
  | Behaviour (ev : BehaviourEventM)
  | ConnectionEstablished (peer_id : PeerId) (remote_address : String)
  | ConnectionClosed (peer_id : PeerId)
  | NewListenAddr (address : String)
  | Dialing (peer_id : Option PeerId)
  | OutgoingConnectionError (peer_id : Option PeerId) (error : String)
  | OtherSwarm
deriving DecidableEq, Repr

/-- One iteration over the vector of two fair sources. -/
inductive LoopInput where
  | Cmd (c : Command)
  | Swarm (ev : SwarmEventM)
deriving DecidableEq, Repr

/-- Body of the `for p in ok.peers` loop in the
`QueryResult::GetClosestPeers(Ok(ok))` branch (src/wasm_bindings.rs lines
186–198): emit `PeerDiscovery` for the peer and insert its stringified
addresses into `discovered_peers`. -/
def closest_peer_step (acc : LoopState × List Event) (p : PeerInfoM) :
    LoopState × List Event :=
  let addrs := p.addrs.map maToString
  ({ acc.1 with shared := { acc.1.shared with
        discovered_peers :=
          mapInsert acc.1.shared.discovered_peers (peerIdStr p.peer_id) addrs } },
   acc.2 ++ [Event.PeerDiscovery (peerIdStr p.peer_id) addrs])

/-- The whole `GetClosestPeers(Ok(_))` branch. -/
def handle_closest_peers_ok (st : LoopState) (peers : List PeerInfoM) :
    LoopState × List Event :=
  peers.foldl closest_peer_step (st, [])

/-- One iteration of the wasm event loop (src/wasm_bindings.rs lines
125–255).  `publish` is the gossipsub module's publish operation
(an external collaborator); its `Ok` value is the message id already in
the debug format that the emitted event carries.  The returned list is
the sequence of domain events sent to the event channel during the
iteration. -/
def loop_step (publish : String → List Nat → Except String String)
    (st : LoopState) (input : LoopInput) : LoopState × List Event :=
  match input with
  | .Cmd (.Publish data) =>
    match publish docstore_topic data with
    | .ok msg_id => (st, [Event.MessagePublished msg_id])
    | .error e => (st, [Event.Error ("Publish error: " ++ e)])
  | .Cmd (.FindPeer _) =>
    -- get_closest_peers starts a query inside kademlia; the routing table
    -- entries are unchanged and no domain event is emitted here.
    (st, [])
  | .Swarm ev =>
    match ev with
    | .Behaviour (.Gossipsub (.Message src _ data)) =>
        (st, [Event.MessageReceived (peerIdStr src) (String.mk (utf8Lossy data))])
    | .Behaviour (.Gossipsub _) => (st, [])
    | .Behaviour (.Identify (.Received pid addrs)) =>
        ({ st with kademlia := addrs.foldl (fun k a => k.add_address pid a) st.kademlia },
         [])
    | .Behaviour (.Identify _) => (st, [])
    | .Behaviour (.Kademlia (.OutboundQueryProgressed _ (.GetClosestPeersOk peers))) =>
        handle_closest_peers_ok st peers
    | .Behaviour (.Kademlia _) => (st, [])
    | .Behaviour .Ping => (st, [])
    | .ConnectionEstablished pid remote =>
        ({ st with shared := { st.shared with
              connected_peers := mapInsert st.shared.connected_peers (peerIdStr pid) [remote] } },
         [Event.Connected (peerIdStr pid)])
    | .ConnectionClosed pid =>
        ({ st with shared := { st.shared with
              connected_peers := mapRemove st.shared.connected_peers (peerIdStr pid) } },
         [Event.Disconnected (peerIdStr pid)])
    | .NewListenAddr a =>
        ({ st with shared := { st.shared with
              listen_addrs :=
                if st.shared.listen_addrs.contains a then st.shared.listen_addrs
                else st.shared.listen_addrs ++ [a] } },
         [])
    | .Dialing _ => (st, [])
    | .OutgoingConnectionError _ e => (st, [Event.Error ("Connection error: " ++ e)])
    | .OtherSwarm => (st, [])

/-- States the wasm event loop can reach from spawn, under arbitrary
interleavings of commands and swarm events and arbitrary behaviour of
the gossipsub publish collaborator. -/
inductive Reachable (key : Keypair) : LoopState → Prop where
  | init : Reachable key (initLoopState key)
  | step (s : LoopState) (hs : Reachable key s)
      (publish : String → List Nat → Except String String) (i : LoopInput) :
      Reachable key (loop_step publish s i).1

/-! ## `WasmNode::find_peer` (src/wasm_bindings.rs lines 278–288)

The peer-id parser and the command channel are collaborators: `parsePid`
models `str::parse::<PeerId>`, `channel_open` whether the event-loop task
(the receiver) is still alive.  The second component of the result is the
list of commands passed to `unbounded_send`; when the channel is closed
the send fails and the command is not enqueued, which the `Except` result
reports. -/
def find_peer (parsePid : String → Option PeerId) (channel_open : Bool)
    (peer_id : String) : Except String Unit × List Command :=
  match parsePid peer_id with
  | none => (.error "invalid peer id", [])
  | some pid =>
    if channel_open then (.ok (), [Command.FindPeer pid])
    else (.error "Failed to send find peer command", [Command.FindPeer pid])

/-! ## Helper lemmas -/

theorem mapLookup_mapInsert (m : List (String × List String)) (k : String)
    (v : List String) : mapLookup (mapInsert m k v) k = some v := by
  induction m with
  | nil => simp [mapInsert, mapLookup]
  | cons p rest ih =>
    by_cases h : p.1 = k
    · simp [mapInsert, mapLookup, h] at ih ⊢
    · simp [mapInsert, mapLookup, List.filter_cons, h] at ih ⊢

theorem mapLookup_mapRemove (m : List (String × List String)) (k : String) :
    mapLookup (mapRemove m k) k = none := by
  induction m with
  | nil => simp [mapRemove, mapLookup]
  | cons p rest ih =>
    by_cases h : p.1 = k
    · simp [mapRemove, mapLookup, h] at ih ⊢
    · simp [mapRemove, mapLookup, List.filter_cons, h] at ih ⊢

/-! ## C1: role table of `build_behaviours` -/

/-- C1: for every role, `build_behaviours` composes the module set per the
role table: Client gets a client-mode (query-only) routing table and no
relay behaviour; Relay and FullNode get a server-mode routing table and a
relay behaviour; ping, gossipsub and identify are included for every
role, with the configurations built by `make_peer_dht` and
`make_docstore_gossipsub`. -/
theorem build_behaviours_role_table (role : NodeRole) (key : Keypair) :
    (((NodeBuilder.new role).build_behaviours key).2.2.2.1.mode =
      match role with
      | .Client => Mode.Client
      | .Relay => Mode.Server
      | .FullNode => Mode.Server) ∧
    (((NodeBuilder.new role).build_behaviours key).2.2.2.2 =
      match role with
      | .Client => none
      | .Relay => some (make_relay_behaviour (PeerId.fromPublic key.public))
      | .FullNode => some (make_relay_behaviour (PeerId.fromPublic key.public))) ∧
    ((NodeBuilder.new role).build_behaviours key).1 = PingBehaviour.default ∧
    ((NodeBuilder.new role).build_behaviours key).2.1 = make_docstore_gossipsub key ∧
    ((NodeBuilder.new role).build_behaviours key).2.2.1 =
      { protocol_version := "simple-p2p-docstore/0.1", public_key := key.public } := by
  cases role <;> exact ⟨rfl, rfl, rfl, rfl, rfl⟩

/-! ## C9: the server's relay `expect` cannot panic -/

/-- C9: the server constructs its node with role `Relay`, and
`build_behaviours` returns a relay behaviour for that role, so the
`expect("relay behaviour expected for relay role")` in the server's
`with_behaviour` closure never panics: the construction always yields
`ok`. -/
theorem server_with_behaviour_never_panics (key : Keypair) :
    ∃ b : MyBehaviour, server_with_behaviour key = .ok b :=
  ⟨_, rfl⟩

/-! ## C2: corrupt identity file is treated as absence -/

/-- C2: if the identity key file exists and its bytes fail to decode,
`load_or_create_identity` behaves exactly as if the file had been absent
(it falls through to generating a fresh keypair and persisting it), and
when the filesystem writes succeed it returns `ok` with the fresh
keypair, having written its encoding to the path. -/
theorem load_or_create_identity_corrupt_is_absence
    (path : String) (fs : FsModel) (decode : List Nat → Option Keypair)
    (fresh : Keypair) (encode : Keypair → List Nat) (buf : List Nat)
    (hex : fs.exists_file = true)
    (hread : fs.read_result = .ok buf)
    (hdec : decode buf = none) :
    load_or_create_identity path fs decode fresh encode =
      load_or_create_identity path { fs with exists_file := false } decode fresh encode ∧
    (fs.create_dir_result = .ok () → fs.write_result = .ok () →
      load_or_create_identity path fs decode fresh encode =
        .ok (fresh, [(path, encode fresh)])) := by
  constructor
  · simp [load_or_create_identity, hex, hread, hdec, generate_and_persist]
  · intro hc hw
    simp [load_or_create_identity, hex, hread, hdec, generate_and_persist, hc, hw]

/-- Witness for C2 at a concrete corrupt-file state. -/
theorem load_or_create_identity_corrupt_is_absence_witness :
    load_or_create_identity "id.key"
      { exists_file := true, read_result := .ok [7], create_dir_result := .ok (),
        write_result := .ok () }
      (fun _ => none) ⟨5⟩ (fun k => [k.id]) = .ok (⟨5⟩, [("id.key", [5])]) := by
  have h := load_or_create_identity_corrupt_is_absence "id.key"
    { exists_file := true, read_result := .ok [7], create_dir_result := .ok (),
      write_result := .ok () }
    (fun _ => none) ⟨5⟩ (fun k => [k.id]) [7] rfl rfl rfl
  exact h.2 rfl rfl

/-! ## C4: bootstrap seed partition -/

/-- Per-entry classification of the bootstrap loop body. -/
theorem process_seed_class (parse : String → Option MultiaddrM) (s : String) :
    isAddAction (process_seed parse s) = is_direct_seed parse s ∧
    isDialAction (process_seed parse s) = is_dial_seed parse s ∧
    isInvalidAction (process_seed parse s) = is_invalid_seed parse s := by
  unfold process_seed is_direct_seed is_dial_seed is_invalid_seed
  cases h : parse s with
  | none => exact ⟨rfl, rfl, rfl⟩
  | some addr =>
    cases he : extract_peer_id addr <;>
      simp [isAddAction, isDialAction, isInvalidAction, he]

/-- C4: over every seed list, each entry produces exactly one action
(the action list has the same length as the seed list, so a bad entry
never aborts the remaining ones), the number of direct routing-table
insertions equals the number of entries whose parsed address embeds a
peer identity, the number of dials equals the number of entries parsing
without an embedded identity, and the number of reported-and-skipped
entries equals the number of parse failures. -/
theorem bootstrap_seeds_partition (parse : String → Option MultiaddrM)
    (seeds : List String) :
    (bootstrap_seeds parse seeds).length = seeds.length ∧
    (bootstrap_seeds parse seeds).countP isAddAction =
      seeds.countP (is_direct_seed parse) ∧
    (bootstrap_seeds parse seeds).countP isDialAction =
      seeds.countP (is_dial_seed parse) ∧
    (bootstrap_seeds parse seeds).countP isInvalidAction =
      seeds.countP (is_invalid_seed parse) := by
  refine ⟨by simp [bootstrap_seeds], ?_, ?_, ?_⟩ <;>
  · simp only [bootstrap_seeds, List.countP_map]
    apply List.countP_congr
    intro s _
    simp only [Function.comp_apply, (process_seed_class parse s).1,
      (process_seed_class parse s).2.1, (process_seed_class parse s).2.2]

/-! ## C5: publish command handling -/

/-- C5: each dequeued `Publish` command invokes gossip publish on the
canonical topic and emits exactly one domain event — `MessagePublished`
with the message id on success, `Error` with the reason on failure — and
leaves the loop state unchanged. -/
theorem publish_command_emits_exactly_one_event
    (publish : String → List Nat → Except String String)
    (st : LoopState) (data : List Nat) :
    (loop_step publish st (.Cmd (.Publish data))).1 = st ∧
    (loop_step publish st (.Cmd (.Publish data))).2.length = 1 ∧
    ((∃ m, publish docstore_topic data = .ok m ∧
        (loop_step publish st (.Cmd (.Publish data))).2 = [Event.MessagePublished m]) ∨
     (∃ e, publish docstore_topic data = .error e ∧
        (loop_step publish st (.Cmd (.Publish data))).2 =
          [Event.Error ("Publish error: " ++ e)])) := by
  cases h : publish docstore_topic data <;> simp [loop_step, h]

/-! ## C6: inbound gossip messages are lossily decoded, never fatal -/

/-- C6: for every inbound gossip message, whatever its payload bytes, the
loop emits exactly the `MessageReceived` event whose source is the
propagation source and whose data is the lossy UTF-8 decoding of the
payload, and the state is unchanged; the decoder is total, decodes ASCII
payloads verbatim, and replaces an invalid byte with U+FFFD. -/
theorem gossip_message_lossy_decode :
    (∀ (publish : String → List Nat → Except String String)
       (st : LoopState) (src : PeerId) (mid : String) (data : List Nat),
      loop_step publish st (.Swarm (.Behaviour (.Gossipsub (.Message src mid data)))) =
        (st, [Event.MessageReceived (peerIdStr src) (String.mk (utf8Lossy data))])) ∧
    (∀ data : List Nat, (∀ b ∈ data, b < 0x80) →
      utf8Lossy data = data.map Char.ofNat) ∧
    utf8Lossy [0xFF, 0x41] = [replacementChar, Char.ofNat 0x41] := by
  refine ⟨fun _ _ _ _ _ => rfl, ?_, by decide⟩
  intro data
  induction data with
  | nil => intro _; rfl
  | cons b rest ih =>
    intro h
    have hb : b < 0x80 := h b (by simp)
    have hstep : utf8Lossy (b :: rest) = Char.ofNat b :: utf8Lossy rest := by
      rw [utf8Lossy.eq_def]
      simp [hb]
    rw [hstep, List.map_cons, ih (fun x hx => h x (by simp [hx]))]

/-- Witness for C6's ASCII clause at a concrete payload. -/
theorem gossip_message_lossy_decode_witness :
    utf8Lossy [72, 105] = [72, 105].map Char.ofNat :=
  gossip_message_lossy_decode.2.1 [72, 105] (by decide)

/-! ## C7: connection events touch only `connected_peers` -/

/-- C7: `ConnectionEstablished` inserts the peer with its remote endpoint
into `connected_peers` and emits `Connected`; `ConnectionClosed` removes
the peer and emits `Disconnected`; in both cases the routing table,
`listen_addrs`, `discovered_peers`, `subscriptions` and `relays` are
unchanged. -/
theorem connection_events_frame
    (publish : String → List Nat → Except String String)
    (st : LoopState) (pid : PeerId) (remote : String) :
    ((loop_step publish st (.Swarm (.ConnectionEstablished pid remote))).1.shared.connected_peers =
        mapInsert st.shared.connected_peers (peerIdStr pid) [remote] ∧
     mapLookup (loop_step publish st
        (.Swarm (.ConnectionEstablished pid remote))).1.shared.connected_peers
        (peerIdStr pid) = some [remote] ∧
     (loop_step publish st (.Swarm (.ConnectionEstablished pid remote))).2 =
        [Event.Connected (peerIdStr pid)] ∧
     (loop_step publish st (.Swarm (.ConnectionEstablished pid remote))).1.kademlia = st.kademlia ∧
     (loop_step publish st (.Swarm (.ConnectionEstablished pid remote))).1.shared.listen_addrs =
        st.shared.listen_addrs ∧
     (loop_step publish st (.Swarm (.ConnectionEstablished pid remote))).1.shared.discovered_peers =
        st.shared.discovered_peers ∧
     (loop_step publish st (.Swarm (.ConnectionEstablished pid remote))).1.shared.subscriptions =
        st.shared.subscriptions ∧
     (loop_step publish st (.Swarm (.ConnectionEstablished pid remote))).1.shared.relays =
        st.shared.relays) ∧
    ((loop_step publish st (.Swarm (.ConnectionClosed pid))).1.shared.connected_peers =
        mapRemove st.shared.connected_peers (peerIdStr pid) ∧
     mapLookup (loop_step publish st
        (.Swarm (.ConnectionClosed pid))).1.shared.connected_peers (peerIdStr pid) = none ∧
     (loop_step publish st (.Swarm (.ConnectionClosed pid))).2 =
        [Event.Disconnected (peerIdStr pid)] ∧
     (loop_step publish st (.Swarm (.ConnectionClosed pid))).1.kademlia = st.kademlia ∧
     (loop_step publish st (.Swarm (.ConnectionClosed pid))).1.shared.listen_addrs =
        st.shared.listen_addrs ∧
     (loop_step publish st (.Swarm (.ConnectionClosed pid))).1.shared.discovered_peers =
        st.shared.discovered_peers ∧
     (loop_step publish st (.Swarm (.ConnectionClosed pid))).1.shared.subscriptions =
        st.shared.subscriptions ∧
     (loop_step publish st (.Swarm (.ConnectionClosed pid))).1.shared.relays =
        st.shared.relays) :=
  ⟨⟨rfl, mapLookup_mapInsert _ _ _, rfl, rfl, rfl, rfl, rfl, rfl⟩,
   ⟨rfl, mapLookup_mapRemove _ _, rfl, rfl, rfl, rfl, rfl, rfl⟩⟩

/-! ## C3: identify handler (corrected)

The claim states that the identify handler inserts the advertised
addresses both into the routing table and into `discovered_peers`.  The
code (src/wasm_bindings.rs lines 175–181, and likewise the server loop)
only calls `kademlia.add_address`; `discovered_peers` is written
exclusively by the closest-peers query-result branch.
-/

theorem add_address_table_mono (k : KademliaBehaviour) (pid : PeerId)
    (a : MultiaddrM) (e : PeerId × MultiaddrM) (he : e ∈ k.table) :
    e ∈ (k.add_address pid a).table := by
  unfold KademliaBehaviour.add_address
  split
  · exact he
  · exact List.mem_append_left _ he

theorem mem_add_address_self (k : KademliaBehaviour) (pid : PeerId) (a : MultiaddrM) :
    (pid, a) ∈ (k.add_address pid a).table := by
  unfold KademliaBehaviour.add_address
  split
  · assumption
  · simp

theorem foldl_add_address_mono (addrs : List MultiaddrM) (k : KademliaBehaviour)
    (pid : PeerId) (e : PeerId × MultiaddrM) (he : e ∈ k.table) :
    e ∈ (addrs.foldl (fun k a => k.add_address pid a) k).table := by
  induction addrs generalizing k with
  | nil => exact he
  | cons a rest ih => exact ih _ (add_address_table_mono _ _ _ _ he)

theorem mem_foldl_add_address (addrs : List MultiaddrM) (k : KademliaBehaviour)
    (pid : PeerId) :
    ∀ a ∈ addrs, (pid, a) ∈ (addrs.foldl (fun k a => k.add_address pid a) k).table := by
  induction addrs generalizing k with
  | nil => intro a ha; cases ha
  | cons a rest ih =>
    intro x hx
    simp only [List.foldl_cons]
    rcases List.mem_cons.mp hx with rfl | hx
    · exact foldl_add_address_mono rest _ pid _ (mem_add_address_self k pid x)
    · exact ih _ x hx

/-- C3 counterexample: after an identify `Received` event for peer 1 with
one advertised address, starting from the initial loop state, the address
is in the routing table but `discovered_peers` is still empty — the
handler performed no `discovered_peers` insertion, contrary to the
claim. -/
theorem identify_received_counterexample :
    (loop_step (fun _ _ => .error "") (initLoopState ⟨0⟩)
        (.Swarm (.Behaviour (.Identify
          (.Received ⟨1⟩ [[MProtocol.Other 0]]))))).1.shared.discovered_peers = [] ∧
    mapLookup (loop_step (fun _ _ => .error "") (initLoopState ⟨0⟩)
        (.Swarm (.Behaviour (.Identify
          (.Received ⟨1⟩ [[MProtocol.Other 0]]))))).1.shared.discovered_peers
        (peerIdStr ⟨1⟩) = none ∧
    (loop_step (fun _ _ => .error "") (initLoopState ⟨0⟩)
        (.Swarm (.Behaviour (.Identify
          (.Received ⟨1⟩ [[MProtocol.Other 0]]))))).1.kademlia.table =
      [(⟨1⟩, [MProtocol.Other 0])] := by
  refine ⟨rfl, rfl, ?_⟩
  decide

/-- C3 (amended): on an identify `Received` event the handler inserts
every advertised address for the peer into the routing table only; the
shared state — in particular `discovered_peers` — is left unchanged, and
no domain event is emitted. -/
theorem identify_received_routing_table_only
    (publish : String → List Nat → Except String String)
    (st : LoopState) (pid : PeerId) (addrs : List MultiaddrM) :
    (loop_step publish st (.Swarm (.Behaviour (.Identify (.Received pid addrs))))).2 = [] ∧
    (loop_step publish st (.Swarm (.Behaviour (.Identify (.Received pid addrs))))).1.shared =
      st.shared ∧
    (loop_step publish st (.Swarm (.Behaviour (.Identify (.Received pid addrs))))).1.kademlia =
      addrs.foldl (fun k a => k.add_address pid a) st.kademlia ∧
    ∀ a ∈ addrs,
      (pid, a) ∈ (loop_step publish st
        (.Swarm (.Behaviour (.Identify (.Received pid addrs))))).1.kademlia.table := by
  refine ⟨rfl, rfl, rfl, ?_⟩
  intro a ha
  exact mem_foldl_add_address addrs st.kademlia pid a ha

/-- Witness for C3's amended theorem at a concrete identify event. -/
theorem identify_received_routing_table_only_witness :
    ((⟨1⟩, [MProtocol.Other 0]) : PeerId × MultiaddrM) ∈
      (loop_step (fun _ _ => .error "") (initLoopState ⟨0⟩)
        (.Swarm (.Behaviour (.Identify
          (.Received ⟨1⟩ [[MProtocol.Other 0]]))))).1.kademlia.table :=
  (identify_received_routing_table_only (fun _ _ => .error "") (initLoopState ⟨0⟩)
    ⟨1⟩ [[MProtocol.Other 0]]).2.2.2 [MProtocol.Other 0] (by simp)

/-! ## C8: `listen_addrs` is duplicate-free and insertion-ordered -/

theorem closest_fold_frames (peers : List PeerInfoM) (acc : LoopState × List Event) :
    (peers.foldl closest_peer_step acc).1.kademlia = acc.1.kademlia ∧
    (peers.foldl closest_peer_step acc).1.shared.listen_addrs = acc.1.shared.listen_addrs ∧
    (peers.foldl closest_peer_step acc).1.shared.connected_peers =
      acc.1.shared.connected_peers ∧
    (peers.foldl closest_peer_step acc).1.shared.subscriptions =
      acc.1.shared.subscriptions ∧
    (peers.foldl closest_peer_step acc).1.shared.relays = acc.1.shared.relays := by
  induction peers generalizing acc with
  | nil => exact ⟨rfl, rfl, rfl, rfl, rfl⟩
  | cons p rest ih =>
    simp only [List.foldl_cons]
    exact ih (closest_peer_step acc p)

/-- Every loop iteration either leaves `listen_addrs` unchanged, or — on
a `NewListenAddr` event whose address is not yet present — appends that
one address at the end. -/
theorem listen_addrs_step_shape
    (publish : String → List Nat → Except String String)
    (st : LoopState) (i : LoopInput) :
    (loop_step publish st i).1.shared.listen_addrs = st.shared.listen_addrs ∨
    ∃ a, a ∉ st.shared.listen_addrs ∧
      (loop_step publish st i).1.shared.listen_addrs = st.shared.listen_addrs ++ [a] ∧
      i = .Swarm (.NewListenAddr a) := by
  match i with
  | .Cmd (.Publish data) =>
    left
    cases h : publish docstore_topic data <;> simp [loop_step, h]
  | .Cmd (.FindPeer pid) => left; rfl
  | .Swarm (.Behaviour (.Gossipsub g)) => left; cases g <;> rfl
  | .Swarm (.Behaviour (.Identify idev)) => left; cases idev <;> rfl
  | .Swarm (.Behaviour (.Kademlia (.OutboundQueryProgressed _ r))) =>
    left
    match r with
    | .GetClosestPeersOk peers => exact (closest_fold_frames peers (st, [])).2.1
    | .GetClosestPeersErr _ => rfl
    | .OtherResult => rfl
  | .Swarm (.Behaviour (.Kademlia .OtherKademlia)) => left; rfl
  | .Swarm (.Behaviour .Ping) => left; rfl
  | .Swarm (.ConnectionEstablished _ _) => left; rfl
  | .Swarm (.ConnectionClosed _) => left; rfl
  | .Swarm (.NewListenAddr a) =>
    by_cases h : st.shared.listen_addrs.contains a
    · left
      have hm : a ∈ st.shared.listen_addrs := by simpa using h
      simp [loop_step, h, hm]
    · right
      have hna : a ∉ st.shared.listen_addrs := fun hmem => h (by simpa using hmem)
      exact ⟨a, hna, by simp [loop_step, hna], rfl⟩
  | .Swarm (.Dialing _) => left; rfl
  | .Swarm (.OutgoingConnectionError _ _) => left; rfl
  | .Swarm .OtherSwarm => left; rfl

/-- C8: in every loop state reachable from the initial empty list,
`listen_addrs` has no duplicates; and each step either leaves it
unchanged or — only on a `NewListenAddr` event — appends one
not-yet-present address at the end (set semantics with insertion order
preserved, and no other handler mutates it). -/
theorem listen_addrs_invariant :
    (∀ (key : Keypair) (s : LoopState), Reachable key s →
      s.shared.listen_addrs.Nodup) ∧
    (∀ (publish : String → List Nat → Except String String)
       (st : LoopState) (i : LoopInput),
      (loop_step publish st i).1.shared.listen_addrs = st.shared.listen_addrs ∨
      ∃ a, a ∉ st.shared.listen_addrs ∧
        (loop_step publish st i).1.shared.listen_addrs = st.shared.listen_addrs ++ [a] ∧
        i = .Swarm (.NewListenAddr a)) := by
  refine ⟨?_, listen_addrs_step_shape⟩
  intro key s h
  induction h with
  | init => simp [initLoopState, initSharedState]
  | step s hs publish i ih =>
    rcases listen_addrs_step_shape publish s i with heq | ⟨a, ha, heq, _⟩
    · rw [heq]; exact ih
    · rw [heq]
      simp [List.nodup_append, ih, ha]

/-- Witness for C8 at a state reached by one `NewListenAddr` step. -/
theorem listen_addrs_invariant_witness :
    (loop_step (fun _ _ => Except.error "") (initLoopState ⟨0⟩)
      (.Swarm (.NewListenAddr "/ip4/127.0.0.1/tcp/1"))).1.shared.listen_addrs.Nodup :=
  listen_addrs_invariant.1 ⟨0⟩ _
    (Reachable.step _ Reachable.init (fun _ _ => Except.error "") _)

/-! ## C10: `find_peer` validates before touching the command queue -/

/-- C10: `find_peer` first parses its input: a string that does not parse
as a peer id yields an error and no command is sent; a string that parses
leads to exactly one `FindPeer` command for the parsed peer id being
handed to the command channel, and the call errors exactly when the
channel is closed. -/
theorem find_peer_validates_before_send
    (parsePid : String → Option PeerId) (channel_open : Bool) (s : String) :
    (parsePid s = none →
      (find_peer parsePid channel_open s).2 = [] ∧
      (find_peer parsePid channel_open s).1 = .error "invalid peer id") ∧
    (∀ pid, parsePid s = some pid →
      (find_peer parsePid channel_open s).2 = [Command.FindPeer pid] ∧
      ((find_peer parsePid channel_open s).1 = .ok () ↔ channel_open = true)) := by
  constructor
  · intro h
    simp [find_peer, h]
  · intro pid h
    cases channel_open <;> simp [find_peer, h]

/-- Witness for C10 with a parser that accepts and an open channel. -/
theorem find_peer_validates_before_send_witness :
    (find_peer (fun _ => some ⟨3⟩) true "QmPeer").2 = [Command.FindPeer ⟨3⟩] :=
  ((find_peer_validates_before_send (fun _ => some ⟨3⟩) true "QmPeer").2 ⟨3⟩ rfl).1

end SimpleP2P
